import Mathlib

/-!
# Verification of the hand-counter perception pipeline

A shallow embedding of `hand_counter.py` (class `HandCounter`): the hand-raise
classifier `detect_raised_hands_heuristic`, the greedy `non_max_suppression`
deduplicator, and the `process_image` aggregation, together with theorems about
the properties stated in the specification.

Modelling conventions:
* Python integers become `ℤ`; Python/NumPy floating-point scalars become `ℚ`
  (exact rationals; all properties at issue are threshold comparisons).
  Python `int(h * 0.15)` on a nonnegative `h` is modelled as the exact floor
  `h * 15 / 100`; IEEE rounding can shift `int(h * 0.35)` by one at some
  heights (first at `h = 180`), which does not affect any property below.
* The external library routines of cv2/NumPy that turn a sub-rectangle of the
  image into grayscale statistics (`cvtColor`, `Canny 30 100`, `np.sum`,
  `np.var`, `np.mean`) are abstracted as an uninterpreted measurement function
  (`Measure`); the pretrained HOG person detector (`hog.detectMultiScale`) is
  abstracted as the candidate list carried by the decoded image. Everything the
  repository itself computes — clipping, band bounds, guards, ratios, the
  suppression loop, counts and proportions — is embedded concretely.
* The parallel NumPy arrays `boxes`/`weights` are modelled as one list of
  pairs; `argsort()[::-1]` is modelled as a stable sort by descending
  confidence (the source's tie order among equal confidences is
  implementation-defined in NumPy).
* `cv2.imread` returning `None` (undecodable image) is modelled by an
  `Option` input; the `ValueError` raised in that case becomes `Except.error`.
-/

namespace HandCounter

/-- Bounding box `(x, y, w, h)` in pixel coordinates, as in the source. -/
structure Bbox where
  x : ℤ
  y : ℤ
  w : ℤ
  h : ℤ
deriving DecidableEq, Repr

/-- Grayscale statistics of one image region, as computed in the source by
`cv2.Canny(gray, 30, 100)` / `np.var` / `np.mean` over the region:
`edge_density = np.sum(edges > 0) / edges.size`, the intensity variance and
the mean intensity. -/
structure RegionStats where
  edgeDensity : ℚ
  variance : ℚ
  mean : ℚ
deriving DecidableEq, Repr

/-- Measurement oracle: given the row interval `[r1, r2)` and column interval
`[c1, c2)` of a sub-rectangle of the image, the grayscale statistics the
source computes for that region with the cv2/NumPy library calls. These calls
are external library code, so they are abstracted as an uninterpreted function
of the region. -/
def Measure : Type := ℤ → ℤ → ℤ → ℤ → RegionStats

/-! ## Heuristic constants (class attributes of `HandCounter`) -/

/-- `TOP_REGION_PCT = 0.15`. -/
def TOP_REGION_PCT : ℚ := 15 / 100

/-- `HEAD_REGION_START_PCT = 0.15`. -/
def HEAD_REGION_START_PCT : ℚ := 15 / 100

/-- `HEAD_REGION_END_PCT = 0.35`. -/
def HEAD_REGION_END_PCT : ℚ := 35 / 100

/-- `MIN_EDGE_DENSITY = 0.008`. -/
def MIN_EDGE_DENSITY : ℚ := 8 / 1000

/-- `MAX_BRIGHTNESS = 220`. -/
def MAX_BRIGHTNESS : ℚ := 220

/-- `RATIO_THRESHOLD = 0.75`. -/
def RATIO_THRESHOLD : ℚ := 75 / 100

/-- `MIN_HEAD_EDGE_DENSITY = 0.001`. -/
def MIN_HEAD_EDGE_DENSITY : ℚ := 1 / 1000

/-- `MIN_HEAD_VARIANCE = 1`. -/
def MIN_HEAD_VARIANCE : ℚ := 1

/-! ## Hand-raise classifier -/

/-- Clipping of the bounding box to the image bounds, lines 55–58 of the
source: `x = max(0, x)`, `y = max(0, y)`, `w = min(w, img_w - x)`,
`h = min(h, img_h - y)`. -/
def clipBbox (imgW imgH : ℤ) (b : Bbox) : Bbox :=
  let x := max 0 b.x
  let y := max 0 b.y
  ⟨x, y, min b.w (imgW - x), min b.h (imgH - y)⟩

/-- `top_height = max(1, int(h * self.TOP_REGION_PCT))`: the number of rows of
the top band. -/
def topHeight (h : ℤ) : ℤ := max 1 (h * 15 / 100)

/-- `head_start = int(h * self.HEAD_REGION_START_PCT)`. -/
def headStart (h : ℤ) : ℤ := h * 15 / 100

/-- `head_end = int(h * self.HEAD_REGION_END_PCT)`. -/
def headEnd (h : ℤ) : ℤ := h * 35 / 100

/-- Number of indices selected by the NumPy slice `a[lo:hi]` on an axis of
size `n`, for nonnegative `lo`, `hi` (NumPy clips the slice to the array
bounds instead of raising). -/
def sliceLen (lo hi n : ℤ) : ℤ := max 0 (min hi n - min lo n)

/-- `region.size` of `image[r1:r2, c1:c2]` for a 3-channel image of height
`imgH` and width `imgW`: rows times columns times channels. -/
def regionSize (imgW imgH r1 r2 c1 c2 : ℤ) : ℤ :=
  sliceLen r1 r2 imgH * sliceLen c1 c2 imgW * 3

/-- `HandCounter.detect_raised_hands_heuristic(image, bbox)`, lines 36–109 of
the source. The image enters through its dimensions and the measurement
oracle `M`. Steps, in source order: clip the box to the image bounds; return
`False` if the clipped width or height is nonpositive; extract the top band
(rows `[y, y + top_height)`) and head band (rows
`[y + head_start, y + head_end)`); return `False` if either region is empty;
measure both regions; return `False` if the head statistics fail the
division-safety guard; otherwise decide with the activity gate and the two
ratio comparisons. In the remaining branch both denominators are strictly
positive (`head_edge_density ≥ 0.001`, `head_variance ≥ 1`), so the `ℚ`
divisions coincide with the source's floating-point divisions' comparisons. -/
def detect_raised_hands_heuristic (M : Measure) (imgW imgH : ℤ) (b : Bbox) : Bool :=
  let c := clipBbox imgW imgH b
  if c.w ≤ 0 ∨ c.h ≤ 0 then false
  else
    let topR1 := c.y
    let topR2 := c.y + topHeight c.h
    let headR1 := c.y + headStart c.h
    let headR2 := c.y + headEnd c.h
    if regionSize imgW imgH topR1 topR2 c.x (c.x + c.w) = 0 ∨
        regionSize imgW imgH headR1 headR2 c.x (c.x + c.w) = 0 then false
    else
      let top := M topR1 topR2 c.x (c.x + c.w)
      let head := M headR1 headR2 c.x (c.x + c.w)
      if head.edgeDensity < MIN_HEAD_EDGE_DENSITY ∨ head.variance < MIN_HEAD_VARIANCE then
        false
      else
        let edge_ratio := top.edgeDensity / head.edgeDensity
        let variance_ratio := top.variance / head.variance
        let has_min_activity :=
          MIN_EDGE_DENSITY < top.edgeDensity ∧ top.mean < MAX_BRIGHTNESS
        decide (has_min_activity ∧ edge_ratio < RATIO_THRESHOLD ∧
          variance_ratio < RATIO_THRESHOLD)

/-! ## Non-maximum suppression -/

/-- A detection candidate: bounding box with confidence weight. The source
keeps these in the parallel arrays `boxes` and `weights`. -/
abbrev Cand : Type := Bbox × ℚ

/-- `x2 = x + w`, the right edge used by the suppression loop. -/
def bx2 (b : Bbox) : ℤ := b.x + b.w

/-- `y2 = y + h`, the bottom edge used by the suppression loop. -/
def by2 (b : Bbox) : ℤ := b.y + b.h

/-- `area = w * h`. -/
def area (b : Bbox) : ℤ := b.w * b.h

/-- Intersection area of two boxes, lines 141–149 of the source:
`w = max(0, xx2 - xx1)`, `h = max(0, yy2 - yy1)`, `intersection = w * h`. -/
def interArea (a b : Bbox) : ℤ :=
  max 0 (min (bx2 a) (bx2 b) - max a.x b.x) * max 0 (min (by2 a) (by2 b) - max a.y b.y)

/-- `union = areas[i] + areas[j] - intersection`. -/
def unionArea (a b : Bbox) : ℤ := area a + area b - interArea a b

/-- `iou = np.where(union > 0, intersection / union, 1.0)`: the guarded
Intersection-over-Union of line 153 of the source. -/
def iou (a b : Bbox) : ℚ :=
  if 0 < unionArea a b then (interArea a b : ℚ) / (unionArea a b : ℚ) else 1

/-- Confidence order used to sort candidates: descending weight. The source
computes `weights.flatten().argsort()[::-1]`; among equal weights NumPy's tie
order is implementation-defined, modelled here as a stable descending sort. -/
def byConf (a b : Cand) : Prop := b.2 ≤ a.2

instance : DecidableRel byConf := fun a b => inferInstanceAs (Decidable (b.2 ≤ a.2))

instance : IsTotal Cand byConf := ⟨fun a b => (le_total b.2 a.2).imp id id⟩

instance : IsTrans Cand byConf := ⟨fun _ _ _ h1 h2 => le_trans h2 h1⟩

/-- Candidate list sorted by descending confidence. -/
def sortCands (l : List Cand) : List Cand := l.insertionSort byConf

/-- The greedy suppression loop, lines 136–156 of the source: pop the
highest-confidence remaining candidate `i`, keep it, and drop every remaining
candidate `j` with `iou i j > overlap_threshold` (the source keeps `j` when
`iou <= overlap_threshold`). -/
def nmsLoop (thr : ℚ) : List Cand → List Cand
  | [] => []
  | c :: rest =>
      c :: nmsLoop thr (rest.filter fun d => decide (iou c.1 d.1 ≤ thr))
termination_by l => l.length
decreasing_by
  exact Nat.lt_succ_of_le (List.length_filter_le _ _)

/-- `HandCounter.non_max_suppression(boxes, weights, overlap_threshold=0.35)`,
lines 111–158 of the source: empty input returns empty output; otherwise sort
by descending confidence and run the greedy loop. The kept boxes and weights
are returned in keep order (`boxes[keep], weights[keep]`). -/
def non_max_suppression (cands : List Cand) (thr : ℚ := 35 / 100) : List Cand :=
  if cands.isEmpty then [] else nmsLoop thr (sortCands cands)

/-! ## Image processing and aggregation -/

/-- A decoded image as the pipeline consumes it: its dimensions, the candidate
detections emitted for it by the pretrained HOG detector
(`hog.detectMultiScale(image, winStride=(4,4), padding=(4,4), scale=1.03,
hitThreshold=-0.3)`, an external model abstracted as data), and the region
measurement oracle for its pixels. -/
structure ImageData where
  imgW : ℤ
  imgH : ℤ
  hogDetections : List Cand
  M : Measure

/-- The result dictionary built at lines 216–223 of the source. Counts are
`ℕ`; `hands_down` is the Python integer subtraction `total_people -
hands_raised_count`, kept as `ℤ`; the proportions are the floating-point
percentages, as `ℚ`. -/
structure DetectionResult where
  total_people : ℕ
  hands_raised : ℕ
  hands_down : ℤ
  hands_raised_proportion : ℚ
  hands_down_proportion : ℚ
  detections : List (Bbox × Bool)

/-- The body of `process_image` after a successful image load, lines 176–223
of the source: filter candidates with confidence `> 0.3` (when any exist),
apply non-maximum suppression (when any remain), classify each surviving box,
count, and build the result record. `hands_raised_proportion` is
`hands_raised_count / total_people * 100` when `total_people > 0` and `0`
otherwise; `hands_down_proportion` is `100 - hands_raised_proportion`. -/
def processDecoded (img : ImageData) : DetectionResult :=
  let cands0 := img.hogDetections
  let cands1 := if cands0.isEmpty then cands0
    else cands0.filter fun c => decide ((3 : ℚ) / 10 < c.2)
  let cands := if cands1.isEmpty then cands1 else non_max_suppression cands1
  let total_people := cands.length
  let dets := cands.map fun c =>
    (c.1, detect_raised_hands_heuristic img.M img.imgW img.imgH c.1)
  let hands_raised_count := (dets.filter fun d => d.2).length
  let hands_raised_proportion : ℚ :=
    if 0 < total_people then (hands_raised_count : ℚ) / (total_people : ℚ) * 100 else 0
  { total_people := total_people
    hands_raised := hands_raised_count
    hands_down := (total_people : ℤ) - (hands_raised_count : ℤ)
    hands_raised_proportion := hands_raised_proportion
    hands_down_proportion := 100 - hands_raised_proportion
    detections := dets }

/-- `HandCounter.process_image(image_path)`, lines 160–223: `cv2.imread`
returning `None` (an unreadable image) raises
`ValueError("Could not load image: ...")`; otherwise the decoded image is
processed and a result is returned. The decode step is modelled by the
`Option`: `none` is an undecodable input. -/
def process_image (img : Option ImageData) : Except String DetectionResult :=
  match img with
  | none => Except.error "Could not load image"
  | some img => Except.ok (processDecoded img)

/-! ## Derived accessors and concrete test data -/

/-- The statistics the classifier computes for the top band of a box: the
measurement of rows `[y, y + top_height)`, columns `[x, x + w)` of the clipped
box. -/
def topStats (M : Measure) (imgW imgH : ℤ) (b : Bbox) : RegionStats :=
  let c := clipBbox imgW imgH b
  M c.y (c.y + topHeight c.h) c.x (c.x + c.w)

/-- The statistics the classifier computes for the head band of a box: the
measurement of rows `[y + head_start, y + head_end)`, columns `[x, x + w)` of
the clipped box. -/
def headStats (M : Measure) (imgW imgH : ℤ) (b : Bbox) : RegionStats :=
  let c := clipBbox imgW imgH b
  M (c.y + headStart c.h) (c.y + headEnd c.h) c.x (c.x + c.w)

/-- Measurement oracle of an image whose every region is blank (no edges,
zero variance, black). -/
def zeroMeasure : Measure := fun _ _ _ _ => ⟨0, 0, 0⟩

/-- A decoded 100×100 image for which the person detector emits no
candidates. -/
def emptyImage : ImageData := ⟨100, 100, [], zeroMeasure⟩

/-- Measurement oracle describing an image whose top band (rows starting at 0)
has sparse low-contrast content and whose head band has edges but intensity
variance below 1: the division-safety guard fires there while the activity
gate and both ratio comparisons hold. -/
def guardFiringMeasure : Measure := fun r1 _ _ _ =>
  if r1 = 0 then ⟨1 / 100, 1 / 10, 100⟩ else ⟨1 / 10, 1 / 2, 100⟩

/-- Measurement oracle describing an image with a person whose hands are
raised inside the box at the origin: sparse uniform top band, dense
high-contrast head band. -/
def raisedMeasure : Measure := fun r1 _ _ _ =>
  if r1 = 0 then ⟨1 / 50, 1 / 10, 100⟩ else ⟨1 / 10, 10, 100⟩

/-- A zero-area box (width 0) at the origin. -/
def zbox1 : Bbox := ⟨0, 0, 0, 5⟩

/-- A zero-area box (width 0) away from the origin, not intersecting
`zbox1`. -/
def zbox2 : Bbox := ⟨9, 9, 0, 3⟩

/-! ## Helper lemmas -/

theorem regionSize_eq_zero (imgW imgH r1 r2 c1 c2 : ℤ) :
    regionSize imgW imgH r1 r2 c1 c2 = 0 ↔
      sliceLen r1 r2 imgH = 0 ∨ sliceLen c1 c2 imgW = 0 := by
  unfold regionSize
  constructor
  · intro h
    rcases mul_eq_zero.mp h with h | h
    · rcases mul_eq_zero.mp h with h | h
      · exact Or.inl h
      · exact Or.inr h
    · exact absurd h (by norm_num)
  · rintro (h | h) <;> rw [h] <;> ring

theorem detect_false_of_clip (M : Measure) (imgW imgH : ℤ) (b : Bbox)
    (h : (clipBbox imgW imgH b).w ≤ 0 ∨ (clipBbox imgW imgH b).h ≤ 0) :
    detect_raised_hands_heuristic M imgW imgH b = false := by
  simp only [detect_raised_hands_heuristic]
  rw [if_pos h]

theorem detect_false_of_guard (M : Measure) (imgW imgH : ℤ) (b : Bbox)
    (h : (headStats M imgW imgH b).edgeDensity < MIN_HEAD_EDGE_DENSITY ∨
         (headStats M imgW imgH b).variance < MIN_HEAD_VARIANCE) :
    detect_raised_hands_heuristic M imgW imgH b = false := by
  simp only [headStats] at h
  simp only [detect_raised_hands_heuristic]
  split_ifs with h1 h2
  · rfl
  · rfl
  · rfl

theorem detect_false_of_empty_head_band (M : Measure) (imgW imgH : ℤ) (b : Bbox)
    (h : headEnd (clipBbox imgW imgH b).h ≤ headStart (clipBbox imgW imgH b).h) :
    detect_raised_hands_heuristic M imgW imgH b = false := by
  simp only [detect_raised_hands_heuristic]
  split_ifs with h1 h2 h3
  · rfl
  · rfl
  · rfl
  · exfalso
    apply h2
    refine Or.inr ((regionSize_eq_zero _ _ _ _ _ _).mpr (Or.inl ?_))
    unfold sliceLen
    omega

theorem region_sizes_nonzero (imgW imgH : ℤ) (b : Bbox)
    (hw : 0 < (clipBbox imgW imgH b).w) (hh : 0 < (clipBbox imgW imgH b).h)
    (hband : headStart (clipBbox imgW imgH b).h < headEnd (clipBbox imgW imgH b).h) :
    ¬(regionSize imgW imgH (clipBbox imgW imgH b).y
        ((clipBbox imgW imgH b).y + topHeight (clipBbox imgW imgH b).h)
        (clipBbox imgW imgH b).x
        ((clipBbox imgW imgH b).x + (clipBbox imgW imgH b).w) = 0 ∨
      regionSize imgW imgH
        ((clipBbox imgW imgH b).y + headStart (clipBbox imgW imgH b).h)
        ((clipBbox imgW imgH b).y + headEnd (clipBbox imgW imgH b).h)
        (clipBbox imgW imgH b).x
        ((clipBbox imgW imgH b).x + (clipBbox imgW imgH b).w) = 0) := by
  rw [regionSize_eq_zero, regionSize_eq_zero]
  simp only [clipBbox, sliceLen, topHeight, headStart, headEnd] at *
  omega

/-! ## Claim theorems -/

/-- C4: for every image and bounding box, the classifier clips the box via
`x = max(0,x)`, `y = max(0,y)`, `w = min(w, img_w - x)`,
`h = min(h, img_h - y)`, and whenever the clipped width or height is `≤ 0` it
returns `hands_raised = false` immediately: the result is `false` for every
measurement oracle, i.e. without consulting any band statistics, and the
embedding is a total function, so no exception is raised. -/
theorem C4_clipped_box_policy (imgW imgH : ℤ) (b : Bbox)
    (hdeg : (clipBbox imgW imgH b).w ≤ 0 ∨ (clipBbox imgW imgH b).h ≤ 0) :
    clipBbox imgW imgH b =
      ⟨max 0 b.x, max 0 b.y, min b.w (imgW - max 0 b.x),
        min b.h (imgH - max 0 b.y)⟩ ∧
    ∀ M : Measure, detect_raised_hands_heuristic M imgW imgH b = false :=
  ⟨rfl, fun M => detect_false_of_clip M imgW imgH b hdeg⟩

/-- C4 witness: the box `(200, 0, 50, 50)` in a 100×100 image clips to a
negative width and is classified `false`. -/
theorem C4_clipped_box_policy_witness :
    ((clipBbox 100 100 ⟨200, 0, 50, 50⟩).w ≤ 0 ∨
      (clipBbox 100 100 ⟨200, 0, 50, 50⟩).h ≤ 0) ∧
    detect_raised_hands_heuristic zeroMeasure 100 100 ⟨200, 0, 50, 50⟩ = false :=
  ⟨by decide, (C4_clipped_box_policy 100 100 ⟨200, 0, 50, 50⟩ (by decide)).2 zeroMeasure⟩

/-- C5: whenever the head band statistics satisfy
`head_edge_density < 0.001` or `head_variance < 1`, the classifier returns
`false`, regardless of the top band's content (the measurement oracle is
constrained only at the head band), and the guarded branch precedes the ratio
divisions, so the near-zero denominator is never used; the embedding is a
total function, so no exception is raised. -/
theorem C5_denominator_guard (M : Measure) (imgW imgH : ℤ) (b : Bbox)
    (hguard : (headStats M imgW imgH b).edgeDensity < MIN_HEAD_EDGE_DENSITY ∨
      (headStats M imgW imgH b).variance < MIN_HEAD_VARIANCE) :
    detect_raised_hands_heuristic M imgW imgH b = false :=
  detect_false_of_guard M imgW imgH b hguard

/-- C5 witness: a box whose head band has variance `1/2 < 1` is classified
`false` even though its top band is dense and dark. -/
theorem C5_denominator_guard_witness :
    (headStats guardFiringMeasure 100 100 ⟨0, 0, 50, 50⟩).variance <
      MIN_HEAD_VARIANCE ∧
    detect_raised_hands_heuristic guardFiringMeasure 100 100 ⟨0, 0, 50, 50⟩ = false :=
  ⟨by norm_num [headStats, guardFiringMeasure, clipBbox, headStart, headEnd, MIN_HEAD_VARIANCE],
   C5_denominator_guard guardFiringMeasure 100 100 ⟨0, 0, 50, 50⟩ (Or.inr (by
     norm_num [headStats, guardFiringMeasure, clipBbox, headStart, headEnd,
       MIN_HEAD_VARIANCE]))⟩

/-- C2 counterexample: the claim's decision formula
(`has_min_activity ∧ edge_ratio < 0.75 ∧ variance_ratio < 0.75`) holds for
this box — the top band has edge density `1/100 > 0.008`, mean `100 < 220`,
`edge_ratio = 1/10 < 3/4` and `variance_ratio = 1/5 < 3/4` — yet the
classifier returns `false`, because the head variance `1/2` trips the
division-safety guard that the claim omits. -/
theorem C2_counterexample :
    detect_raised_hands_heuristic guardFiringMeasure 100 100 ⟨0, 0, 50, 50⟩ = false ∧
    (MIN_EDGE_DENSITY <
        (topStats guardFiringMeasure 100 100 ⟨0, 0, 50, 50⟩).edgeDensity ∧
      (topStats guardFiringMeasure 100 100 ⟨0, 0, 50, 50⟩).mean < MAX_BRIGHTNESS) ∧
    (topStats guardFiringMeasure 100 100 ⟨0, 0, 50, 50⟩).edgeDensity /
        (headStats guardFiringMeasure 100 100 ⟨0, 0, 50, 50⟩).edgeDensity <
      RATIO_THRESHOLD ∧
    (topStats guardFiringMeasure 100 100 ⟨0, 0, 50, 50⟩).variance /
        (headStats guardFiringMeasure 100 100 ⟨0, 0, 50, 50⟩).variance <
      RATIO_THRESHOLD := by
  norm_num [detect_raised_hands_heuristic, topStats, headStats, guardFiringMeasure,
    clipBbox, topHeight, headStart, headEnd, regionSize, sliceLen, MIN_EDGE_DENSITY,
    MAX_BRIGHTNESS, RATIO_THRESHOLD, MIN_HEAD_EDGE_DENSITY, MIN_HEAD_VARIANCE]

/-- C2 (amended): for every image and every bounding box whose clipped box has
positive width and height and a nonempty head band, the classifier returns
`true` exactly when the head statistics pass the division-safety guard
(`head_edge_density ≥ 0.001` and `head_variance ≥ 1`) AND
`has_min_activity` AND `edge_ratio < 0.75` AND `variance_ratio < 0.75`, the
statistics being computed over the top band (rows `[0, max(1, ⌊0.15h⌋))`) and
head band (rows `[⌊0.15h⌋, ⌊0.35h⌋)`) of the clipped box. -/
theorem C2_decision_rule (M : Measure) (imgW imgH : ℤ) (b : Bbox)
    (hw : 0 < (clipBbox imgW imgH b).w) (hh : 0 < (clipBbox imgW imgH b).h)
    (hband : headStart (clipBbox imgW imgH b).h < headEnd (clipBbox imgW imgH b).h) :
    detect_raised_hands_heuristic M imgW imgH b = true ↔
      (MIN_HEAD_EDGE_DENSITY ≤ (headStats M imgW imgH b).edgeDensity ∧
        MIN_HEAD_VARIANCE ≤ (headStats M imgW imgH b).variance ∧
        (MIN_EDGE_DENSITY < (topStats M imgW imgH b).edgeDensity ∧
          (topStats M imgW imgH b).mean < MAX_BRIGHTNESS) ∧
        (topStats M imgW imgH b).edgeDensity / (headStats M imgW imgH b).edgeDensity <
          RATIO_THRESHOLD ∧
        (topStats M imgW imgH b).variance / (headStats M imgW imgH b).variance <
          RATIO_THRESHOLD) := by
  have hreg := region_sizes_nonzero imgW imgH b hw hh hband
  simp only [topStats, headStats]
  simp only [detect_raised_hands_heuristic]
  rw [if_neg (by push_neg; exact ⟨hw, hh⟩), if_neg hreg]
  split_ifs with hg
  · constructor
    · intro hc
      exact absurd hc (by simp)
    · rintro ⟨hA, hB, -⟩
      rcases hg with hg | hg
      · exact absurd hg (not_lt.mpr hA)
      · exact absurd hg (not_lt.mpr hB)
  · rw [decide_eq_true_eq]
    push_neg at hg
    exact ⟨fun hp => ⟨hg.1, hg.2, hp⟩, fun hp => hp.2.2⟩

/-- C2 witness: a box whose top band is sparse and uniform relative to a
dense, high-contrast head band is classified as hands raised. -/
theorem C2_decision_rule_witness :
    detect_raised_hands_heuristic raisedMeasure 100 100 ⟨0, 0, 50, 50⟩ = true :=
  (C2_decision_rule raisedMeasure 100 100 ⟨0, 0, 50, 50⟩ (by decide) (by decide)
    (by decide)).mpr (by
      norm_num [topStats, headStats, raisedMeasure, clipBbox, topHeight, headStart,
        headEnd, MIN_EDGE_DENSITY, MAX_BRIGHTNESS, RATIO_THRESHOLD,
        MIN_HEAD_EDGE_DENSITY, MIN_HEAD_VARIANCE])

/-- C10: for every image and bounding box, the top band of the clipped box
spans `max(1, ⌊0.15h⌋)` rows, hence at least one row, and actually selects at
least one row of the image when the clipped height is positive; for clipped
height `h ≤ 2` the head band bounds collapse (`⌊0.35h⌋ ≤ ⌊0.15h⌋`); and
whenever the head band is empty the classifier returns `false` for every
measurement oracle — no statistics are consulted and, the embedding being a
total function, no exception is raised. -/
theorem C10_band_degeneracy (imgW imgH : ℤ) (b : Bbox) :
    (topHeight (clipBbox imgW imgH b).h =
        max 1 ((clipBbox imgW imgH b).h * 15 / 100) ∧
      1 ≤ topHeight (clipBbox imgW imgH b).h) ∧
    (0 < (clipBbox imgW imgH b).h →
      1 ≤ sliceLen (clipBbox imgW imgH b).y
          ((clipBbox imgW imgH b).y + topHeight (clipBbox imgW imgH b).h) imgH) ∧
    (0 < (clipBbox imgW imgH b).h → (clipBbox imgW imgH b).h ≤ 2 →
      headEnd (clipBbox imgW imgH b).h ≤ headStart (clipBbox imgW imgH b).h) ∧
    (headEnd (clipBbox imgW imgH b).h ≤ headStart (clipBbox imgW imgH b).h →
      ∀ M : Measure, detect_raised_hands_heuristic M imgW imgH b = false) := by
  refine ⟨⟨rfl, by unfold topHeight; omega⟩, ?_, ?_, ?_⟩
  · intro hpos
    simp only [clipBbox, sliceLen, topHeight] at *
    omega
  · intro hpos hle
    have h12 : (clipBbox imgW imgH b).h = 1 ∨ (clipBbox imgW imgH b).h = 2 := by omega
    rcases h12 with h1 | h1 <;> rw [h1] <;> decide
  · intro hempty M
    exact detect_false_of_empty_head_band M imgW imgH b hempty

/-- C10 witness: a 10×2 box at the origin of a 100×100 image has a positive
clipped height, a one-row top band, collapsed head-band bounds, and is
classified `false`. -/
theorem C10_band_degeneracy_witness :
    0 < (clipBbox 100 100 ⟨0, 0, 10, 2⟩).h ∧
    1 ≤ sliceLen (clipBbox 100 100 ⟨0, 0, 10, 2⟩).y
        ((clipBbox 100 100 ⟨0, 0, 10, 2⟩).y +
          topHeight (clipBbox 100 100 ⟨0, 0, 10, 2⟩).h) 100 ∧
    headEnd (clipBbox 100 100 ⟨0, 0, 10, 2⟩).h ≤
      headStart (clipBbox 100 100 ⟨0, 0, 10, 2⟩).h ∧
    detect_raised_hands_heuristic zeroMeasure 100 100 ⟨0, 0, 10, 2⟩ = false :=
  ⟨by decide,
   (C10_band_degeneracy 100 100 ⟨0, 0, 10, 2⟩).2.1 (by decide),
   (C10_band_degeneracy 100 100 ⟨0, 0, 10, 2⟩).2.2.1 (by decide) (by decide),
   (C10_band_degeneracy 100 100 ⟨0, 0, 10, 2⟩).2.2.2
     ((C10_band_degeneracy 100 100 ⟨0, 0, 10, 2⟩).2.2.1 (by decide) (by decide))
     zeroMeasure⟩

/-- C1 counterexample: for a decodable image in which zero people are
detected, the code sets `hands_raised_proportion = 0` but
`hands_down_proportion = 100 - 0 = 100`, not `0` as the claim states. -/
theorem C1_counterexample :
    (processDecoded emptyImage).total_people = 0 ∧
    (processDecoded emptyImage).hands_raised_proportion = 0 ∧
    (processDecoded emptyImage).hands_down_proportion = 100 ∧
    (processDecoded emptyImage).hands_down_proportion ≠ 0 := by
  norm_num [processDecoded, emptyImage]

/-- C1 (amended): for every processed image with `total_people == 0`, the
result has `hands_raised_proportion = 0` and `hands_down_proportion = 100`
(not `0`); for every result with `total_people > 0`,
`hands_raised_proportion + hands_down_proportion = 100` (exactly, in the
rational model). -/
theorem C1_proportion_law (img : ImageData) :
    ((processDecoded img).total_people = 0 →
      (processDecoded img).hands_raised_proportion = 0 ∧
      (processDecoded img).hands_down_proportion = 100) ∧
    (0 < (processDecoded img).total_people →
      (processDecoded img).hands_raised_proportion +
        (processDecoded img).hands_down_proportion = 100) := by
  simp only [processDecoded]
  constructor
  · intro h0
    simp only [h0]
    norm_num
  · intro hpos
    ring

/-- C1 witness: the zero-detection image instantiates the amended law. -/
theorem C1_proportion_law_witness :
    (processDecoded emptyImage).total_people = 0 ∧
    (processDecoded emptyImage).hands_raised_proportion = 0 ∧
    (processDecoded emptyImage).hands_down_proportion = 100 :=
  ⟨by simp [processDecoded, emptyImage],
   ((C1_proportion_law emptyImage).1 (by simp [processDecoded, emptyImage])).1,
   ((C1_proportion_law emptyImage).1 (by simp [processDecoded, emptyImage])).2⟩

/-- C8: for every result produced by the pipeline,
`hands_raised + hands_down == total_people`, where `hands_raised` is the
number of detections classified `true`, `hands_down` is the number classified
`false` (the code stores `total_people - hands_raised_count`), and
`total_people` is the length of the detections list. -/
theorem C8_count_invariant (img : ImageData) :
    ((processDecoded img).hands_raised : ℤ) + (processDecoded img).hands_down =
      ((processDecoded img).total_people : ℤ) ∧
    (processDecoded img).hands_raised =
      ((processDecoded img).detections.filter fun d => d.2).length ∧
    (processDecoded img).total_people = (processDecoded img).detections.length := by
  refine ⟨?_, rfl, ?_⟩
  · simp only [processDecoded]
    ring
  · simp only [processDecoded, List.length_map]

/-- C9: `process_image` fails exactly on an undecodable image (`none`), with
the `ValueError` modelled as `Except.error`; every decodable image yields a
result, and the per-person geometric and numeric degeneracies (zero-area
clipped boxes; near-zero head-band denominators) never fail — they classify
the person `hands_raised = false`. -/
theorem C9_error_policy :
    (∀ r, process_image none ≠ Except.ok r) ∧
    (∀ img : ImageData, process_image (some img) = Except.ok (processDecoded img)) ∧
    (∀ (M : Measure) (imgW imgH : ℤ) (b : Bbox),
      (clipBbox imgW imgH b).w ≤ 0 ∨ (clipBbox imgW imgH b).h ≤ 0 →
        detect_raised_hands_heuristic M imgW imgH b = false) ∧
    (∀ (M : Measure) (imgW imgH : ℤ) (b : Bbox),
      (headStats M imgW imgH b).edgeDensity < MIN_HEAD_EDGE_DENSITY ∨
        (headStats M imgW imgH b).variance < MIN_HEAD_VARIANCE →
        detect_raised_hands_heuristic M imgW imgH b = false) :=
  ⟨fun _ h => Except.noConfusion h, fun _ => rfl,
   detect_false_of_clip, detect_false_of_guard⟩

/-- C9 witness: a decodable empty image succeeds; a box clipping to negative
width and a box with a degenerate head band are both classified `false`. -/
theorem C9_error_policy_witness :
    process_image (some emptyImage) = Except.ok (processDecoded emptyImage) ∧
    detect_raised_hands_heuristic zeroMeasure 100 100 ⟨200, 0, 50, 50⟩ = false ∧
    detect_raised_hands_heuristic guardFiringMeasure 100 100 ⟨0, 0, 50, 50⟩ = false :=
  ⟨C9_error_policy.2.1 emptyImage,
   C9_error_policy.2.2.1 zeroMeasure 100 100 ⟨200, 0, 50, 50⟩ (by decide),
   C9_error_policy.2.2.2 guardFiringMeasure 100 100 ⟨0, 0, 50, 50⟩ (Or.inr (by
     norm_num [headStats, guardFiringMeasure, clipBbox, headStart, headEnd,
       MIN_HEAD_VARIANCE]))⟩

/-! ## Suppression lemmas -/

theorem interArea_comm (a b : Bbox) : interArea a b = interArea b a := by
  unfold interArea
  rw [min_comm (bx2 a), max_comm a.x, min_comm (by2 a), max_comm a.y]

theorem unionArea_comm (a b : Bbox) : unionArea a b = unionArea b a := by
  unfold unionArea
  rw [interArea_comm]
  ring_nf

theorem iou_comm (a b : Bbox) : iou a b = iou b a := by
  unfold iou
  rw [interArea_comm, unionArea_comm]

theorem nmsLoop_sublist (thr : ℚ) (l : List Cand) : (nmsLoop thr l).Sublist l := by
  induction l using nmsLoop.induct thr with
  | case1 => simp [nmsLoop]
  | case2 c rest ih =>
      simp only [nmsLoop]
      exact (ih.trans (List.filter_sublist rest)).cons₂ c

theorem nmsLoop_pairwise (thr : ℚ) (l : List Cand) :
    (nmsLoop thr l).Pairwise fun p q => iou p.1 q.1 ≤ thr := by
  induction l using nmsLoop.induct thr with
  | case1 => simp [nmsLoop]
  | case2 c rest ih =>
      simp only [nmsLoop]
      refine List.pairwise_cons.mpr ⟨fun q hq => ?_, ih⟩
      have hq2 : q ∈ rest.filter fun d => decide (iou c.1 d.1 ≤ thr) :=
        (nmsLoop_sublist thr _).subset hq
      exact of_decide_eq_true (List.mem_filter.mp hq2).2

theorem nmsLoop_eq_self (thr : ℚ) :
    ∀ l : List Cand, (l.Pairwise fun p q => iou p.1 q.1 ≤ thr) → nmsLoop thr l = l
  | [], _ => by simp [nmsLoop]
  | c :: rest, h => by
      rw [List.pairwise_cons] at h
      have hf : (rest.filter fun d => decide (iou c.1 d.1 ≤ thr)) = rest :=
        List.filter_eq_self.mpr fun d hd => decide_eq_true (h.1 d hd)
      simp only [nmsLoop, hf]
      rw [nmsLoop_eq_self thr rest h.2]

/-- C3: non-maximum suppression at `overlap_threshold = 0.35` (the default)
maps the empty input to the empty output, and every pair of distinct kept
boxes has IoU at most `0.35` (stated symmetrically in both orders). -/
theorem C3_nms_overlap_invariant :
    non_max_suppression [] = [] ∧
    ∀ cands : List Cand,
      (non_max_suppression cands).Pairwise
        fun p q => iou p.1 q.1 ≤ 35 / 100 ∧ iou q.1 p.1 ≤ 35 / 100 := by
  refine ⟨rfl, fun cands => ?_⟩
  unfold non_max_suppression
  split_ifs with h
  · exact List.Pairwise.nil
  · exact (nmsLoop_pairwise _ _).imp fun hpq => ⟨hpq, by rw [iou_comm]; exact hpq⟩

/-- C6: the IoU of the suppression loop is computed as
`intersection / union` when `union > 0` and is `1.0` when `union = 0`; two
zero-union boxes (here two zero-width, non-intersecting boxes) are treated as
fully overlapping, so the lower-confidence one is suppressed. -/
theorem C6_iou_division_guard :
    (∀ a b : Bbox, 0 < unionArea a b →
      iou a b = (interArea a b : ℚ) / (unionArea a b : ℚ)) ∧
    (∀ a b : Bbox, unionArea a b = 0 → iou a b = 1) ∧
    iou zbox1 zbox2 = 1 ∧
    non_max_suppression [(zbox1, 9 / 10), (zbox2, 1 / 2)] = [(zbox1, 9 / 10)] := by
  refine ⟨fun a b h => by rw [iou, if_pos h],
    fun a b h => by rw [iou, if_neg (by omega)],
    by rw [iou, if_neg (by decide)], ?_⟩
  norm_num [non_max_suppression, sortCands, List.insertionSort, List.orderedInsert,
    byConf, nmsLoop, iou, unionArea, interArea, area, bx2, by2, zbox1, zbox2]

/-- C6 witness: a positive-union pair takes the division branch; a zero-union
pair takes the `1.0` branch. -/
theorem C6_iou_division_guard_witness :
    0 < unionArea ⟨0, 0, 2, 2⟩ ⟨0, 0, 2, 2⟩ ∧
    iou ⟨0, 0, 2, 2⟩ ⟨0, 0, 2, 2⟩ =
      (interArea ⟨0, 0, 2, 2⟩ ⟨0, 0, 2, 2⟩ : ℚ) /
        (unionArea ⟨0, 0, 2, 2⟩ ⟨0, 0, 2, 2⟩ : ℚ) ∧
    unionArea zbox1 ⟨5, 5, 0, 0⟩ = 0 ∧ iou zbox1 ⟨5, 5, 0, 0⟩ = 1 :=
  ⟨by decide, C6_iou_division_guard.1 _ _ (by decide), by decide,
   C6_iou_division_guard.2.1 _ _ (by decide)⟩

/-- C7: non-maximum suppression is idempotent — suppressing the output of
suppression, at the same threshold, returns it unchanged. (In the embedding
the sort is stable descending; the NumPy tie order among equal confidences is
implementation-defined.) -/
theorem C7_nms_idempotent (cands : List Cand) (thr : ℚ) :
    non_max_suppression (non_max_suppression cands thr) thr =
      non_max_suppression cands thr := by
  by_cases h : cands.isEmpty
  · simp [non_max_suppression, h]
  · simp only [non_max_suppression, if_neg h]
    by_cases h2 : (nmsLoop thr (sortCands cands)).isEmpty
    · rw [if_pos h2, List.isEmpty_iff.mp h2]
    · rw [if_neg h2]
      have hsorted : (nmsLoop thr (sortCands cands)).Pairwise byConf :=
        List.Pairwise.sublist (nmsLoop_sublist thr (sortCands cands))
          (List.sorted_insertionSort byConf cands)
      have hsort_eq : sortCands (nmsLoop thr (sortCands cands)) =
          nmsLoop thr (sortCands cands) :=
        List.Sorted.insertionSort_eq hsorted
      rw [sortCands] at hsort_eq
      rw [sortCands, hsort_eq]
      exact nmsLoop_eq_self thr _ (nmsLoop_pairwise thr (sortCands cands))

end HandCounter
